import Mathlib

/-!
Verification development for `vks.py`, a bot that distributes profile URLs
from a shared `profiles.txt` work list to multiple reviewers.  The embedding
below translates the coordination core of the script into Lean: the global
`reviewed_globally` set, per-user `Session` state, the file-level operations
`load_profiles` / `remove_profile`, the retirement broadcast `mark_reviewed`,
and the handlers `send_next`, `cmd_start`, `cmd_skip`, `cmd_status`,
`cmd_accepted`, `on_callback`.

Modelling conventions:
* File contents are `Option String` (`none` models a missing `profiles.txt`).
* Python string primitives used by the script (`str.strip`, `str.split("|")[0]`,
  `str.splitlines`, `"\n".join`) are re-implemented over `List Char`.
  `splitlines` is modelled for `'\n'` separators, the only separator this
  script itself ever writes.
* Side effects towards Telegram are collected as a list of `Msg` values; the
  external fetch collaborator only influences message payloads, never the
  coordination state, so presentations are recorded as a single `Msg.present`.
* The Python `sessions` dict with lazy creation (`get_session`) is totalised
  to a function `Nat → Session` whose default is the freshly-created empty
  session; a lazily created session is empty and every operation treats a
  missing session exactly like an empty one, so this is observationally equal.
* `random.shuffle` is modelled by an explicit `shuffle` function parameter.
* Each `Session` carries a ghost field `outstanding`: the keys of messages
  that were sent with live ДА/НЕТ buttons and whose reply markup has not been
  removed.  It instruments the code (only `send_next` appends, only the
  markup edit in `on_callback` erases) and never influences control flow.
-/

/-- Python `str.isspace` characters relevant to `str.strip()`. -/
def pyIsSpace (c : Char) : Bool :=
  c == ' ' || c == '\t' || c == '\n' || c == '\r' || c == Char.ofNat 11 || c == Char.ofNat 12

/-- Python `s.strip()` on a character list. -/
def pyStripL (l : List Char) : List Char :=
  ((l.dropWhile pyIsSpace).reverse.dropWhile pyIsSpace).reverse

/-- Python `s.split("|")[0]` on a character list: everything before the first `'|'`. -/
def takeFieldL (l : List Char) : List Char :=
  l.takeWhile (fun c => !(c == '|'))

/-- Python `s.splitlines()` restricted to `'\n'` separators. -/
def pySplitlinesL : List Char → List (List Char)
  | [] => []
  | c :: cs =>
    if c = '\n' then [] :: pySplitlinesL cs
    else
      match pySplitlinesL cs with
      | [] => [[c]]
      | l :: ls => (c :: l) :: ls

/-- Python `"\n".join(ls)` on character lists. -/
def joinNlL : List (List Char) → List Char
  | [] => []
  | [l] => l
  | l :: ls => l ++ '\n' :: joinNlL ls

/-- The key `l.split("|")[0].strip()` that `remove_profile` compares against. -/
def lineKeyL (l : List Char) : List Char :=
  pyStripL (takeFieldL l)

/-- String-level wrapper for `pySplitlinesL`. -/
def pySplitlines (s : String) : List String :=
  (pySplitlinesL s.data).map String.mk

/-- String-level wrapper for `lineKeyL`. -/
def lineKey (l : String) : String :=
  ⟨lineKeyL l.data⟩

/-- Messages the bot emits towards Telegram (payload details elided). -/
inductive Msg where
  /-- The "Загружаю профиль ..." notice sent before fetching. -/
  | loading (uid : Nat) (url : String)
  /-- A presentation carrying the ДА/НЕТ inline buttons bound to `uid`
      (covers both the photo and the degraded text-only variant). -/
  | present (uid : Nat) (url : String)
  /-- The terminal "Просмотр завершён" report with accepted count and list. -/
  | complete (uid : Nat) (total : Nat) (accepted : List String)
  /-- The "Начинаем!" reply of `cmd_start`. -/
  | started (uid : Nat) (count : Nat)
  /-- The "Нет доступных профилей" reply of `cmd_start`. -/
  | noProfiles (uid : Nat)
  /-- The "Добавлено!" confirmation of an accept verdict. -/
  | addedNote (uid : Nat) (url : String)
  /-- The "Удалено из списка." confirmation of a reject verdict. -/
  | removedNote (uid : Nat)
  /-- The "Это не твоя сессия!" alert shown to a non-owner. -/
  | notYourSession (uid : Nat)
  /-- The `cmd_status` report: pending, accepted and globally-reviewed counts. -/
  | statusReport (uid : Nat) (pending : Nat) (accepted : Nat) (reviewedGlobally : Nat)
  /-- The `cmd_accepted` report. -/
  | acceptedReport (uid : Nat) (accepted : List String)
deriving DecidableEq, Repr

/-- Per-user session state (`class Session`); `tmpdir` is omitted (it only
holds downloaded media) and `outstanding` is the ghost instrumentation
described in the header. -/
structure Session where
  queue : List String
  current : Option String
  accepted : List String
  outstanding : List String
deriving DecidableEq, Repr

/-- A freshly constructed `Session()`. -/
def emptySession : Session :=
  { queue := [], current := none, accepted := [], outstanding := [] }

/-- The process-wide mutable state of the script: `reviewed_globally`,
the `sessions` dict (totalised) and the contents of `profiles.txt`. -/
structure St where
  reviewed_globally : List String
  sessions : Nat → Session
  profiles_file : Option String

/-- Initial process state: empty dedup set, no sessions, a given file. -/
def initSt (f : Option String) : St :=
  { reviewed_globally := [], sessions := fun _ => emptySession, profiles_file := f }

/-- Update one user's session. -/
def setSession (uid : Nat) (f : Session → Session) (s : St) : St :=
  { s with sessions := fun u => if u = uid then f (s.sessions u) else s.sessions u }

/-- The line parser inside `load_profiles`: strip the line, skip it when
blank, take `line.split("|")[0].strip()`, keep it when non-empty and not in
`reviewed_globally`. -/
def parseLines (reviewed : List String) (lines : List (List Char)) : List String :=
  lines.filterMap (fun l =>
    if pyStripL l = [] then none
    else if pyStripL (takeFieldL (pyStripL l)) = [] then none
    else if (⟨pyStripL (takeFieldL (pyStripL l))⟩ : String) ∈ reviewed then none
    else some ⟨pyStripL (takeFieldL (pyStripL l))⟩)

/-- `load_profiles()`: read `profiles.txt` (missing file means no profiles),
parse and filter each line, then shuffle.  `random.shuffle` is modelled by
the explicit `shuffle` parameter. -/
def load_profiles (shuffle : List String → List String) (file : Option String)
    (reviewed : List String) : List String :=
  match file with
  | none => []
  | some c => shuffle (parseLines reviewed (pySplitlinesL c.data))

/-- Character-level body of `remove_profile`: keep the lines whose first
`'|'`-field strips to something different from `url`, rejoin with a final
newline. -/
def removeProfileL (url : List Char) (lines : List (List Char)) : List Char :=
  joinNlL (lines.filter (fun l => !(lineKeyL l == url))) ++ ['\n']

/-- `remove_profile(url)`: no-op when `profiles.txt` is missing, otherwise
rewrite it as `"\n".join(filtered) + "\n"`. -/
def remove_profile (url : String) (file : Option String) : Option String :=
  match file with
  | none => none
  | some c => some ⟨removeProfileL url.data (pySplitlinesL c.data)⟩

/-- `mark_reviewed(url)`: add `url` to `reviewed_globally`, and for every
session remove the first occurrence of `url` from its queue (`list.remove`
guarded by `in`) and clear its `current` when it equals `url`. -/
def mark_reviewed (url : String) (s : St) : St :=
  { reviewed_globally :=
      if url ∈ s.reviewed_globally then s.reviewed_globally else url :: s.reviewed_globally
    sessions := fun u =>
      { queue := (s.sessions u).queue.erase url
        current := if (s.sessions u).current = some url then none else (s.sessions u).current
        accepted := (s.sessions u).accepted
        outstanding := (s.sessions u).outstanding }
    profiles_file := s.profiles_file }

/-- `send_next(user_id)`: when the queue is empty, report completion and
return without touching the session; otherwise set `current` to the head of
the queue (without popping it) and send a presentation with live buttons. -/
def send_next (uid : Nat) (s : St) : St × List Msg :=
  match (s.sessions uid).queue with
  | [] => (s, [Msg.complete uid (s.sessions uid).accepted.length (s.sessions uid).accepted])
  | url :: _ =>
    (setSession uid
      (fun t => { t with current := some url, outstanding := t.outstanding ++ [url] }) s,
     [Msg.loading uid url, Msg.present uid url])

/-- `cmd_start`: load the profiles; on an empty result reply "Нет доступных
профилей" and return *without touching the session*; otherwise overwrite
`queue`, clear `accepted` and `current`, announce the count and present the
first item via `send_next`. -/
def cmd_start (uid : Nat) (shuffle : List String → List String) (s : St) : St × List Msg :=
  if load_profiles shuffle s.profiles_file s.reviewed_globally = [] then
    (s, [Msg.noProfiles uid])
  else
    ((send_next uid (setSession uid
        (fun t => { t with
          queue := load_profiles shuffle s.profiles_file s.reviewed_globally
          accepted := []
          current := none }) s)).1,
     Msg.started uid (load_profiles shuffle s.profiles_file s.reviewed_globally).length ::
       (send_next uid (setSession uid
        (fun t => { t with
          queue := load_profiles shuffle s.profiles_file s.reviewed_globally
          accepted := []
          current := none }) s)).2)

/-- `cmd_skip`: pop the head of the queue when non-empty (`l.tail` is also
the identity on an empty queue, matching the `if session.queue` guard),
leave `current` untouched, and continue with `send_next`. -/
def cmd_skip (uid : Nat) (s : St) : St × List Msg :=
  send_next uid (setSession uid (fun t => { t with queue := t.queue.tail }) s)

/-- `cmd_status`: read-only report. -/
def cmd_status (uid : Nat) (s : St) : St × List Msg :=
  (s, [Msg.statusReport uid (s.sessions uid).queue.length (s.sessions uid).accepted.length
        s.reviewed_globally.length])

/-- `cmd_accepted`: read-only report of the accepted list. -/
def cmd_accepted (uid : Nat) (s : St) : St × List Msg :=
  (s, [Msg.acceptedReport uid (s.sessions uid).accepted])

/-- The reply-markup edit in `on_callback`: erase the pressed message from
the ghost `outstanding` list; `pressed = none` models the
`try/except`-swallowed edit failure. -/
def eraseMarkup (owner : Nat) (pressed : Option String) (s : St) : St :=
  match pressed with
  | none => s
  | some m => setSession owner (fun t => { t with outstanding := t.outstanding.erase m }) s

/-- The verdict part of `on_callback` once the guards have passed: `"yes"`
appends to `accepted` then calls `mark_reviewed`; `"no"` calls
`mark_reviewed` then `remove_profile`; any other action string does
nothing. -/
def judgeApply (action : String) (owner : Nat) (url : String) (s : St) : St × List Msg :=
  if action = "yes" then
    (mark_reviewed url (setSession owner (fun t => { t with accepted := t.accepted ++ [url] }) s),
     [Msg.addedNote owner url])
  else if action = "no" then
    ({ mark_reviewed url s with
        profiles_file := remove_profile url (mark_reviewed url s).profiles_file },
     [Msg.removedNote owner])
  else (s, [])

/-- `on_callback`: reject a press from a non-owner with an alert; silently
ignore a press while `current` is empty; otherwise remove the reply markup
of the pressed message, apply the verdict to the *current* url, and continue
with `send_next`. -/
def on_callback (fromUser owner : Nat) (action : String) (pressed : Option String)
    (s : St) : St × List Msg :=
  if fromUser ≠ owner then (s, [Msg.notYourSession fromUser])
  else
    match (s.sessions owner).current with
    | none => (s, [])
    | some url =>
      ((send_next owner (judgeApply action owner url (eraseMarkup owner pressed s)).1).1,
       (judgeApply action owner url (eraseMarkup owner pressed s)).2 ++
         (send_next owner (judgeApply action owner url (eraseMarkup owner pressed s)).1).2)

/-- One bot interaction.  Callback actions range over `"yes"` and `"no"`
only: these are the only `callback_data` values the bot ever attaches to a
button, so they are the only ones a press can deliver. -/
inductive Step : St → St → Prop where
  | start (uid : Nat) (shuffle : List String → List String) (s : St) :
      Step s (cmd_start uid shuffle s).1
  | skip (uid : Nat) (s : St) : Step s (cmd_skip uid s).1
  | statusCmd (uid : Nat) (s : St) : Step s (cmd_status uid s).1
  | acceptedCmd (uid : Nat) (s : St) : Step s (cmd_accepted uid s).1
  | callback (fromUser owner : Nat) (action : String) (pressed : Option String) (s : St)
      (h : action = "yes" ∨ action = "no") :
      Step s (on_callback fromUser owner action pressed s).1

/-- States reachable from `s0` through bot interactions. -/
inductive Reachable (s0 : St) : St → Prop where
  | refl : Reachable s0 s0
  | tail {s t : St} : Reachable s0 s → Step s t → Reachable s0 t

/-- The session-state invariant behind claim C3: whenever `current` holds a
key, a presentation of that key with live buttons is outstanding for the
same user. -/
def CurrentOutstanding (s : St) : Prop :=
  ∀ uid k, (s.sessions uid).current = some k → k ∈ (s.sessions uid).outstanding

/-- C1 trace, step 1-2: `profiles.txt` holds the same url "k" on three
lines; users 1 and 2 both run `/start` (identity shuffle). -/
def c1_afterStarts : St := (cmd_start 2 id (cmd_start 1 id (initSt (some "k\nk\nk"))).1).1

/-- C1 trace, step 3: user 1 presses ДА on the presented "k", retiring it. -/
def c1_afterJudge : St := (on_callback 1 1 "yes" (some "k") c1_afterStarts).1

/-- C10 trace: `profiles.txt` holds "k" twice; user 1 runs `/start` and
accepts the presented "k". -/
def c10_afterJudge : St :=
  (on_callback 1 1 "yes" (some "k") (cmd_start 1 id (initSt (some "k\nk"))).1).1

/-- C2 trace: `profiles.txt` holds a single url "a"; user 1 runs `/start`
and accepts "a"; now every url is retired, so the next `load_profiles`
yields `[]`. -/
def c2_allRetired : St :=
  (on_callback 1 1 "yes" (some "a") (cmd_start 1 id (initSt (some "a\n"))).1).1

/-- C2 orphan trace: user 1 starts on `"a\nb"` (identity shuffle, so "a" is
presented), then restarts with a reversing shuffle, so "b" is presented
while the "a" presentation from the first start is left in flight with live
buttons. -/
def c2_afterRestart : St :=
  (cmd_start 1 List.reverse (cmd_start 1 id (initSt (some "a\nb"))).1).1

/-- C3 trace for the witness: user 1 starts on a two-profile file and gets
"p" presented. -/
def c3_afterStart : St := (cmd_start 1 id (initSt (some "p\nq"))).1

/-- C4 counterexample state: "k" is globally retired yet sits at the head
of user 1's queue (such states are reachable, cf. `C10_purge_gap`). -/
def c4_state : St :=
  { reviewed_globally := ["k"]
    sessions := fun u =>
      if u = 1 then { queue := ["k"], current := none, accepted := [], outstanding := [] }
      else emptySession
    profiles_file := none }

/-- C4 witness state: one non-retired profile queued. -/
def c4_witness_state : St :=
  { reviewed_globally := []
    sessions := fun u =>
      if u = 1 then { queue := ["p"], current := none, accepted := [], outstanding := [] }
      else emptySession
    profiles_file := none }

/-- C5 counterexample state: "k" already retired, and (as duplicates make
reachable, cf. `C10_purge_gap`) still present in user 1's queue. -/
def c5_state : St :=
  { reviewed_globally := ["k"]
    sessions := fun u =>
      if u = 1 then { queue := ["k"], current := none, accepted := [], outstanding := [] }
      else emptySession
    profiles_file := none }

/-- C5 witness state: "k" queued once, not yet retired. -/
def c5_witness_state : St :=
  { reviewed_globally := []
    sessions := fun u =>
      if u = 1 then { queue := ["k"], current := some "k", accepted := [], outstanding := [] }
      else emptySession
    profiles_file := none }

/-- C6 witness state: user 1 is looking at "k", the file holds "k" and "o". -/
def c6_state : St :=
  { reviewed_globally := []
    sessions := fun u =>
      if u = 1 then { queue := ["k"], current := some "k", accepted := [], outstanding := ["k"] }
      else emptySession
    profiles_file := some "k\no\n" }

theorem pySplitlinesL_nlFree : ∀ (s : List Char), ∀ l ∈ pySplitlinesL s, '\n' ∉ l := by
  intro s
  induction s with
  | nil => simp [pySplitlinesL]
  | cons c cs ih =>
    intro l hl
    by_cases hc : c = '\n'
    · rw [pySplitlinesL, if_pos hc, List.mem_cons] at hl
      rcases hl with h | h
      · simp [h]
      · exact ih l h
    · rw [pySplitlinesL, if_neg hc] at hl
      cases hrec : pySplitlinesL cs with
      | nil =>
        rw [hrec, List.mem_cons] at hl
        rcases hl with h | h
        · subst h
          intro hmem
          rcases List.mem_cons.mp hmem with h1 | h1
          · exact hc h1.symm
          · simp at h1
        · simp at h
      | cons a as =>
        rw [hrec, List.mem_cons] at hl
        rcases hl with h | h
        · subst h
          intro hmem
          rcases List.mem_cons.mp hmem with h1 | h1
          · exact hc h1.symm
          · exact ih a (hrec ▸ List.mem_cons_self a as) h1
        · exact ih l (hrec ▸ List.mem_cons_of_mem a h)

theorem pySplitlinesL_append_newline (l s : List Char) (h : '\n' ∉ l) :
    pySplitlinesL (l ++ '\n' :: s) = l :: pySplitlinesL s := by
  induction l with
  | nil => simp [pySplitlinesL]
  | cons c cs ih =>
    have hc : c ≠ '\n' := fun hcc => h (hcc ▸ List.mem_cons_self c cs)
    have hcs : '\n' ∉ cs := fun hm => h (List.mem_cons_of_mem c hm)
    rw [List.cons_append, pySplitlinesL, if_neg hc, ih hcs]

theorem joinNlL_roundtrip :
    ∀ (ls : List (List Char)), ls ≠ [] → (∀ l ∈ ls, '\n' ∉ l) →
      pySplitlinesL (joinNlL ls ++ ['\n']) = ls := by
  intro ls
  induction ls with
  | nil => intro h; exact absurd rfl h
  | cons l rest ih =>
    intro _ hnl
    cases rest with
    | nil =>
      have hl : '\n' ∉ l := hnl l (List.mem_cons_self l [])
      show pySplitlinesL (l ++ '\n' :: []) = [l]
      rw [pySplitlinesL_append_newline l [] hl]
      rfl
    | cons r rs =>
      have hl : '\n' ∉ l := hnl l (List.mem_cons_self l _)
      have hrest : ∀ x ∈ r :: rs, '\n' ∉ x := fun x hx => hnl x (List.mem_cons_of_mem l hx)
      have hne : (r :: rs : List (List Char)) ≠ [] := by simp
      show pySplitlinesL ((l ++ '\n' :: joinNlL (r :: rs)) ++ ['\n']) = l :: r :: rs
      rw [List.append_assoc, List.cons_append, pySplitlinesL_append_newline l _ hl, ih hne hrest]

theorem send_next_nil (uid : Nat) (s : St) (hq : (s.sessions uid).queue = []) :
    send_next uid s =
      (s, [Msg.complete uid (s.sessions uid).accepted.length (s.sessions uid).accepted]) := by
  unfold send_next
  rw [hq]

theorem send_next_cons (uid : Nat) (s : St) (url : String) (rest : List String)
    (hq : (s.sessions uid).queue = url :: rest) :
    send_next uid s =
      (setSession uid
        (fun t => { t with current := some url, outstanding := t.outstanding ++ [url] }) s,
       [Msg.loading uid url, Msg.present uid url]) := by
  unfold send_next
  rw [hq]

theorem judgeApply_yes (owner : Nat) (url : String) (s : St) :
    judgeApply "yes" owner url s =
      (mark_reviewed url
        (setSession owner (fun t => { t with accepted := t.accepted ++ [url] }) s),
       [Msg.addedNote owner url]) := rfl

theorem judgeApply_no (owner : Nat) (url : String) (s : St) :
    judgeApply "no" owner url s =
      ({ mark_reviewed url s with
          profiles_file := remove_profile url (mark_reviewed url s).profiles_file },
       [Msg.removedNote owner]) := rfl

theorem setSession_self (uid : Nat) (f : Session → Session) (s : St) :
    ((setSession uid f s).sessions uid) = f (s.sessions uid) := by
  simp [setSession]

theorem setSession_other (uid v : Nat) (f : Session → Session) (s : St) (hv : v ≠ uid) :
    ((setSession uid f s).sessions v) = s.sessions v := by
  simp [setSession, hv]

/-- Frame fact: `send_next` never touches `profiles.txt`. -/
theorem send_next_file (uid : Nat) (s : St) :
    (send_next uid s).1.profiles_file = s.profiles_file := by
  cases hq : (s.sessions uid).queue with
  | nil => rw [send_next_nil uid s hq]
  | cons url rest => rw [send_next_cons uid s url rest hq]; rfl

/-- Frame fact: `send_next` never touches `reviewed_globally`. -/
theorem send_next_reviewed (uid : Nat) (s : St) :
    (send_next uid s).1.reviewed_globally = s.reviewed_globally := by
  cases hq : (s.sessions uid).queue with
  | nil => rw [send_next_nil uid s hq]
  | cons url rest => rw [send_next_cons uid s url rest hq]; rfl

theorem currentOutstanding_send_next (uid : Nat) (s : St) (h : CurrentOutstanding s) :
    CurrentOutstanding (send_next uid s).1 := by
  cases hq : (s.sessions uid).queue with
  | nil => rw [send_next_nil uid s hq]; exact h
  | cons url rest =>
    rw [send_next_cons uid s url rest hq]
    intro v k hk
    by_cases hv : v = uid
    · subst hv
      rw [setSession_self] at hk ⊢
      simp only [Option.some.injEq] at hk
      subst hk
      simp
    · rw [setSession_other uid v _ s hv] at hk ⊢
      exact h v k hk

theorem currentOutstanding_mark_reviewed (url : String) (s : St) (h : CurrentOutstanding s) :
    CurrentOutstanding (mark_reviewed url s) := by
  intro v k hk
  simp only [mark_reviewed] at hk ⊢
  by_cases hc : (s.sessions v).current = some url
  · rw [if_pos hc] at hk
    cases hk
  · rw [if_neg hc] at hk
    exact h v k hk

theorem currentOutstanding_cmd_skip (uid : Nat) (s : St) (h : CurrentOutstanding s) :
    CurrentOutstanding (cmd_skip uid s).1 := by
  unfold cmd_skip
  apply currentOutstanding_send_next
  intro v k hk
  by_cases hv : v = uid
  · subst hv
    rw [setSession_self] at hk ⊢
    exact h v k hk
  · rw [setSession_other uid v _ s hv] at hk ⊢
    exact h v k hk

theorem currentOutstanding_cmd_start (uid : Nat) (shuffle : List String → List String) (s : St)
    (h : CurrentOutstanding s) : CurrentOutstanding (cmd_start uid shuffle s).1 := by
  unfold cmd_start
  by_cases hps : load_profiles shuffle s.profiles_file s.reviewed_globally = []
  · rw [if_pos hps]
    exact h
  · rw [if_neg hps]
    simp only
    apply currentOutstanding_send_next
    intro v k hk
    by_cases hv : v = uid
    · subst hv
      rw [setSession_self] at hk
      cases hk
    · rw [setSession_other uid v _ s hv] at hk ⊢
      exact h v k hk

/-- After a real verdict (`"yes"` or `"no"`) on the owner's current key,
`mark_reviewed` has cleared the owner's `current`: this is the "judge clears
`current` before any new `present_next` sets it" half of claim C3. -/
theorem judgeApply_clears_current (action : String) (owner : Nat) (url : String) (s : St)
    (hA : action = "yes" ∨ action = "no")
    (hcur : (s.sessions owner).current = some url) :
    ((judgeApply action owner url s).1.sessions owner).current = none := by
  rcases hA with hA | hA
  · subst hA
    rw [judgeApply_yes]
    simp only [mark_reviewed]
    rw [setSession_self]
    simp only
    rw [if_pos hcur]
  · subst hA
    rw [judgeApply_no]
    simp only [mark_reviewed]
    rw [if_pos hcur]

theorem currentOutstanding_judgeApply (action : String) (owner : Nat) (url : String) (s : St)
    (hA : action = "yes" ∨ action = "no")
    (hcur : (s.sessions owner).current = some url)
    (h : ∀ v k, v ≠ owner → (s.sessions v).current = some k → k ∈ (s.sessions v).outstanding) :
    CurrentOutstanding (judgeApply action owner url s).1 := by
  intro v k hk
  by_cases hv : v = owner
  · subst hv
    rw [judgeApply_clears_current action v url s hA hcur] at hk
    cases hk
  · rcases hA with hA | hA
    · subst hA
      rw [judgeApply_yes] at hk ⊢
      simp only [mark_reviewed] at hk ⊢
      rw [setSession_other owner v _ s hv] at hk ⊢
      by_cases hc : (s.sessions v).current = some url
      · rw [if_pos hc] at hk
        cases hk
      · rw [if_neg hc] at hk
        exact h v k hv hk
    · subst hA
      rw [judgeApply_no] at hk ⊢
      simp only [mark_reviewed] at hk ⊢
      by_cases hc : (s.sessions v).current = some url
      · rw [if_pos hc] at hk
        cases hk
      · rw [if_neg hc] at hk
        exact h v k hv hk

theorem currentOutstanding_on_callback (fromUser owner : Nat) (action : String)
    (pressed : Option String) (s : St)
    (hA : action = "yes" ∨ action = "no") (h : CurrentOutstanding s) :
    CurrentOutstanding (on_callback fromUser owner action pressed s).1 := by
  unfold on_callback
  by_cases hid : fromUser ≠ owner
  · rw [if_pos hid]
    exact h
  · rw [if_neg hid]
    cases hcur : (s.sessions owner).current with
    | none => exact h
    | some url =>
      simp only
      apply currentOutstanding_send_next
      cases pressed with
      | none =>
        exact currentOutstanding_judgeApply action owner url s hA hcur
          (fun v k _ hk => h v k hk)
      | some m =>
        apply currentOutstanding_judgeApply action owner url _ hA
        · rw [eraseMarkup, setSession_self]
          exact hcur
        · intro v k hv hk
          rw [eraseMarkup, setSession_other owner v _ s hv] at hk ⊢
          exact h v k hk

theorem currentOutstanding_step {s t : St} (hst : Step s t) (h : CurrentOutstanding s) :
    CurrentOutstanding t := by
  cases hst with
  | start uid shuffle s => exact currentOutstanding_cmd_start uid shuffle s h
  | skip uid s => exact currentOutstanding_cmd_skip uid s h
  | statusCmd uid s => exact h
  | acceptedCmd uid s => exact h
  | callback fromUser owner action pressed s hA =>
      exact currentOutstanding_on_callback fromUser owner action pressed s hA h

theorem currentOutstanding_init (f : Option String) : CurrentOutstanding (initSt f) := by
  intro uid k hk
  simp [initSt, emptySession] at hk

theorem currentOutstanding_reachable {f : Option String} {s : St}
    (hr : Reachable (initSt f) s) : CurrentOutstanding s := by
  induction hr with
  | refl => exact currentOutstanding_init f
  | tail _ hst ih => exact currentOutstanding_step hst ih

theorem lineKeyL_nil : lineKeyL [] = [] := rfl

theorem pySplitlinesL_newline_singleton : pySplitlinesL ['\n'] = [[]] := rfl

theorem filter_nlFree (url : List Char) (lines : List (List Char))
    (hnl : ∀ l ∈ lines, '\n' ∉ l) :
    ∀ l ∈ lines.filter (fun l => !(lineKeyL l == url)), '\n' ∉ l :=
  fun l hl => hnl l (List.mem_of_mem_filter hl)

/-- Every line of the file rewritten by `remove_profile` carries a key
different from the removed (non-empty) url. -/
theorem removeProfileL_key_ne (url : List Char) (lines : List (List Char))
    (hurl : url ≠ []) (hnl : ∀ l ∈ lines, '\n' ∉ l) :
    ∀ l ∈ pySplitlinesL (removeProfileL url lines), lineKeyL l ≠ url := by
  unfold removeProfileL
  cases hfl : lines.filter (fun l => !(lineKeyL l == url)) with
  | nil =>
    intro l hl
    simp only [joinNlL, List.nil_append, pySplitlinesL_newline_singleton] at hl
    rcases List.mem_cons.mp hl with h | h
    · subst h
      rw [lineKeyL_nil]
      exact fun hc => hurl hc.symm
    · simp at h
  | cons a as =>
    intro l hl
    have hanl : ∀ x ∈ a :: as, '\n' ∉ x := hfl ▸ filter_nlFree url lines hnl
    rw [joinNlL_roundtrip (a :: as) (by simp) hanl] at hl
    rw [← hfl] at hl
    have hp := (List.mem_filter.mp hl).2
    simpa using hp

/-- `remove_profile` applied twice yields the same file contents as applied
once (character-level core). -/
theorem removeProfileL_idem (url : List Char) (lines : List (List Char))
    (hnl : ∀ l ∈ lines, '\n' ∉ l) :
    removeProfileL url (pySplitlinesL (removeProfileL url lines)) = removeProfileL url lines := by
  unfold removeProfileL
  cases hfl : lines.filter (fun l => !(lineKeyL l == url)) with
  | nil =>
    simp only [joinNlL, List.nil_append, pySplitlinesL_newline_singleton]
    by_cases hu : url = []
    · subst hu
      simp [lineKeyL_nil, joinNlL]
    · have hp : (!(lineKeyL [] == url)) = true := by
        rw [lineKeyL_nil]
        simp only [Bool.not_eq_true', beq_eq_false_iff_ne]
        exact fun hc => hu hc.symm
      simp [hp, joinNlL]
  | cons a as =>
    have hanl : ∀ x ∈ a :: as, '\n' ∉ x := hfl ▸ filter_nlFree url lines hnl
    rw [joinNlL_roundtrip (a :: as) (by simp) hanl, ← hfl, List.filter_filter]
    simp

/-- When the url is absent (no line's key matches), the rewrite of a
non-empty file preserves the parsed line list. -/
theorem removeProfileL_absent (url : List Char) (lines : List (List Char))
    (habs : ∀ l ∈ lines, lineKeyL l ≠ url) (hnl : ∀ l ∈ lines, '\n' ∉ l)
    (hne : lines ≠ []) :
    pySplitlinesL (removeProfileL url lines) = lines := by
  unfold removeProfileL
  have hfl : lines.filter (fun l => !(lineKeyL l == url)) = lines := by
    apply List.filter_eq_self.mpr
    intro a ha
    simpa using habs a ha
  rw [hfl]
  exact joinNlL_roundtrip lines hne hnl

/-- `remove_profile` is idempotent on arbitrary file states. -/
theorem remove_profile_idem (url : String) (f : Option String) :
    remove_profile url (remove_profile url f) = remove_profile url f := by
  cases f with
  | none => rfl
  | some c =>
    have h := removeProfileL_idem url.data (pySplitlinesL c.data) (pySplitlinesL_nlFree c.data)
    simp only [remove_profile]
    exact congrArg (fun x => some (String.mk x)) h

/-- A url recorded in `reviewed_globally` never comes back from
`load_profiles`, whatever the file contents, provided the shuffle is a
permutation (as `random.shuffle` is). -/
theorem load_profiles_not_mem_of_reviewed (shuffle : List String → List String)
    (hperm : ∀ l, (shuffle l).Perm l) (file : Option String) (reviewed : List String)
    (url : String) (hmem : url ∈ reviewed) :
    url ∉ load_profiles shuffle file reviewed := by
  cases file with
  | none => exact List.not_mem_nil url
  | some c =>
    intro hin
    have hin2 : url ∈ parseLines reviewed (pySplitlinesL c.data) :=
      (hperm (parseLines reviewed (pySplitlinesL c.data))).mem_iff.mp hin
    rcases List.mem_filterMap.mp hin2 with ⟨l, _, hfl⟩
    split_ifs at hfl with h1 h2 h3
    all_goals cases hfl
    all_goals exact h3 hmem

theorem eraseMarkup_file (owner : Nat) (pressed : Option String) (s : St) :
    (eraseMarkup owner pressed s).profiles_file = s.profiles_file := by
  cases pressed with
  | none => rfl
  | some m => rfl

theorem eraseMarkup_reviewed (owner : Nat) (pressed : Option String) (s : St) :
    (eraseMarkup owner pressed s).reviewed_globally = s.reviewed_globally := by
  cases pressed with
  | none => rfl
  | some m => rfl

theorem mark_reviewed_mem (url : String) (s : St) :
    url ∈ (mark_reviewed url s).reviewed_globally := by
  simp only [mark_reviewed]
  by_cases h : url ∈ s.reviewed_globally
  · rw [if_pos h]; exact h
  · rw [if_neg h]; exact List.mem_cons_self url s.reviewed_globally

/-- Frame fact: `cmd_start` never writes `profiles.txt`. -/
theorem cmd_start_file (uid : Nat) (shuffle : List String → List String) (s : St) :
    (cmd_start uid shuffle s).1.profiles_file = s.profiles_file := by
  unfold cmd_start
  by_cases hps : load_profiles shuffle s.profiles_file s.reviewed_globally = []
  · rw [if_pos hps]
  · rw [if_neg hps]
    simp only
    rw [send_next_file]
    rfl

/-- Frame fact: `cmd_skip` never writes `profiles.txt`. -/
theorem cmd_skip_file (uid : Nat) (s : St) :
    (cmd_skip uid s).1.profiles_file = s.profiles_file := by
  unfold cmd_skip
  rw [send_next_file]
  rfl

/-- Frame fact: `mark_reviewed` never writes `profiles.txt`. -/
theorem mark_reviewed_file (url : String) (s : St) :
    (mark_reviewed url s).profiles_file = s.profiles_file := rfl

/-- Frame fact: an accept verdict (`"yes"`) never writes `profiles.txt`,
whichever guard branch is taken. -/
theorem on_callback_yes_file (fromUser owner : Nat) (pressed : Option String) (s : St) :
    (on_callback fromUser owner "yes" pressed s).1.profiles_file = s.profiles_file := by
  unfold on_callback
  by_cases hid : fromUser ≠ owner
  · rw [if_pos hid]
  · rw [if_neg hid]
    cases hcur : (s.sessions owner).current with
    | none => rfl
    | some url =>
      simp only
      rw [send_next_file, judgeApply_yes]
      simp only
      rw [mark_reviewed_file]
      show (eraseMarkup owner pressed s).profiles_file = s.profiles_file
      exact eraseMarkup_file owner pressed s

/-- Helper: a non-empty string has non-empty character data. -/
theorem data_ne_nil_of_ne_empty (u : String) (h : u ≠ "") : u.data ≠ [] := by
  intro hd
  apply h
  cases u with
  | mk d =>
    simp only at hd
    rw [hd]

/-- Every line of the file after `remove_profile url` (for a non-empty url,
as every presented url is) parses to a key different from `url`. -/
theorem remove_profile_lines_key_ne (url : String) (c : String) (hurl : url ≠ "") :
    ∀ l ∈ pySplitlines ((remove_profile url (some c)).getD ""), lineKey l ≠ url := by
  intro l hl heq
  have hred : (remove_profile url (some c)).getD ""
      = ⟨removeProfileL url.data (pySplitlinesL c.data)⟩ := rfl
  rw [hred] at hl
  rcases List.mem_map.mp hl with ⟨ld, hld, rfl⟩
  have hd : lineKeyL ld = url.data := congrArg String.data heq
  exact removeProfileL_key_ne url.data (pySplitlinesL c.data)
    (data_ne_nil_of_ne_empty url hurl) (pySplitlinesL_nlFree c.data) ld hld hd

/-- When no line of the file matches `url`, the `remove_profile` rewrite
preserves the parsed line list (of a non-empty file). -/
theorem remove_profile_absent_lines (url : String) (c : String)
    (habs : ∀ l ∈ pySplitlines c, lineKey l ≠ url) (hne : pySplitlines c ≠ []) :
    pySplitlines ((remove_profile url (some c)).getD "") = pySplitlines c := by
  have habs2 : ∀ ld ∈ pySplitlinesL c.data, lineKeyL ld ≠ url.data := by
    intro ld hld hd
    apply habs ⟨ld⟩ (List.mem_map.mpr ⟨ld, hld, rfl⟩)
    show lineKey ⟨ld⟩ = url
    rw [show lineKey ⟨ld⟩ = ⟨lineKeyL ld⟩ from rfl, hd]
  have hne2 : pySplitlinesL c.data ≠ [] := by
    intro h0
    apply hne
    simp [pySplitlines, h0]
  show (pySplitlinesL ((remove_profile url (some c)).getD "").data).map String.mk
      = (pySplitlinesL c.data).map String.mk
  rw [show ((remove_profile url (some c)).getD "").data
        = removeProfileL url.data (pySplitlinesL c.data) from rfl]
  rw [removeProfileL_absent url.data (pySplitlinesL c.data) habs2
        (pySplitlinesL_nlFree c.data) hne2]

/-- C1: the dedup invariant fails on the code.  With duplicate lines in
`profiles.txt`, `mark_reviewed` (via `list.remove`) deletes only the first
occurrence of the key from each queue, and `send_next` never re-checks
`reviewed_globally`; so after user 1's verdict retired "k" (which was in
user 2's pending queue at that moment), user 2's next `/skip` presents "k"
again.  This contradicts the script's own header promise ("Если профиль уже
оценил любой пользователь — другим он больше не показывается") and
`mark_reviewed`'s docstring. -/
theorem C1_dedup_violation :
    "k" ∉ c1_afterStarts.reviewed_globally
    ∧ "k" ∈ (c1_afterStarts.sessions 2).queue
    ∧ "k" ∈ c1_afterJudge.reviewed_globally
    ∧ Msg.present 2 "k" ∈ (cmd_skip 2 c1_afterJudge).2 := by decide

/-- C10: the queues-hold-no-retired-keys invariant fails on the code.  After
user 1 accepts "k", the very `mark_reviewed` call that retires "k" removes
only the first of the two copies in user 1's queue (`list.remove` deletes a
single occurrence), leaving a retired key in a pending queue — contrary to
`mark_reviewed`'s docstring, which promises removal from all queues. -/
theorem C10_purge_gap :
    "k" ∈ c10_afterJudge.reviewed_globally
    ∧ "k" ∈ (c10_afterJudge.sessions 1).queue := by decide

/-- Frame fact: `send_next` never touches any session's accepted list. -/
theorem send_next_accepted (uid v : Nat) (s : St) :
    ((send_next uid s).1.sessions v).accepted = (s.sessions v).accepted := by
  cases hq : (s.sessions uid).queue with
  | nil => rw [send_next_nil uid s hq]
  | cons url rest =>
    rw [send_next_cons uid s url rest hq]
    by_cases hv : v = uid
    · subst hv
      rw [setSession_self]
    · rw [setSession_other uid v _ s hv]

/-- Frame fact: the reply-markup edit never touches any accepted list. -/
theorem eraseMarkup_accepted (owner : Nat) (pressed : Option String) (s : St) (v : Nat) :
    ((eraseMarkup owner pressed s).sessions v).accepted = (s.sessions v).accepted := by
  cases pressed with
  | none => rfl
  | some m =>
    show ((setSession owner (fun t => { t with outstanding := t.outstanding.erase m })
        s).sessions v).accepted = (s.sessions v).accepted
    by_cases hv : v = owner
    · subst hv
      rw [setSession_self]
    · rw [setSession_other owner v _ s hv]

/-- An accept verdict appends exactly the judged url to the owner's
accepted list. -/
theorem judgeApply_yes_accepted (owner : Nat) (url : String) (s : St) :
    ((judgeApply "yes" owner url s).1.sessions owner).accepted
      = (s.sessions owner).accepted ++ [url] := by
  rw [judgeApply_yes]
  show ((setSession owner (fun t => { t with accepted := t.accepted ++ [url] })
      s).sessions owner).accepted = (s.sessions owner).accepted ++ [url]
  rw [setSession_self]

/-- C2 counterexample, two parts.  (i) Empty reload: when `load_profiles`
comes back empty, `cmd_start` returns early ("Нет доступных профилей")
without touching the session, so the accepted list is *not* cleared; the
state `c2_allRetired` is reached by an ordinary trace.  (ii) The orphaned
in-flight presentation's eventual verdict is *not* a no-op: after the
restart in `c2_afterRestart` the first start's presentation of "a" is still
live ("a" is outstanding) while `current` is the new head "b"; the buttons'
`callback_data` carries only the owner id, no item key, so pressing НЕТ on
the orphaned "a" message passes both guards and is judged against the *new*
current item — it retires "b" and deletes "b" from `profiles.txt` instead
of being ignored by the stale-current check. -/
theorem C2_cx :
    (c2_allRetired.sessions 1).accepted = ["a"]
    ∧ (cmd_start 1 id c2_allRetired).2 = [Msg.noProfiles 1]
    ∧ ((cmd_start 1 id c2_allRetired).1.sessions 1).accepted = ["a"]
    ∧ (c2_afterRestart.sessions 1).current = some "b"
    ∧ "a" ∈ (c2_afterRestart.sessions 1).outstanding
    ∧ "b" ∉ c2_afterRestart.reviewed_globally
    ∧ "b" ∈ (on_callback 1 1 "no" (some "a") c2_afterRestart).1.reviewed_globally
    ∧ (on_callback 1 1 "no" (some "a") c2_afterRestart).1.profiles_file = some "a\n" := by
  decide

/-- C2 as amended: when `load_profiles` yields at least one key, `cmd_start`
replaces the queue with the shuffled keys, clears `accepted`, and clears
`current` before `send_next` sets it to the new head — this reset happens
regardless of an unresolved in-flight presentation, but that presentation
is merely overwritten, not tracked: its buttons stay live, and since the
buttons' callback data carries only the owner id, its eventual verdict is
*not* a no-op — it is judged against whatever is current at press time, so
the first press after the restart, whichever message it lands on, records a
verdict for the new head (last conjunct, for an accept).  When
`load_profiles` yields no keys, `cmd_start` leaves the entire state
unchanged and only reports that no profiles are available. -/
theorem C2_amended (s : St) (uid : Nat) (shuffle : List String → List String) :
    (load_profiles shuffle s.profiles_file s.reviewed_globally = [] →
        (cmd_start uid shuffle s).1 = s)
    ∧ (∀ url rest, load_profiles shuffle s.profiles_file s.reviewed_globally = url :: rest →
        ((cmd_start uid shuffle s).1.sessions uid).queue = url :: rest
        ∧ ((cmd_start uid shuffle s).1.sessions uid).accepted = []
        ∧ ((cmd_start uid shuffle s).1.sessions uid).current = some url
        ∧ ∀ pressed : Option String,
            ((on_callback uid uid "yes" pressed
                (cmd_start uid shuffle s).1).1.sessions uid).accepted = [url]) := by
  constructor
  · intro hps
    unfold cmd_start
    rw [if_pos hps]
  · intro url rest hps
    have hsess : ((cmd_start uid shuffle s).1.sessions uid).queue = url :: rest
        ∧ ((cmd_start uid shuffle s).1.sessions uid).accepted = []
        ∧ ((cmd_start uid shuffle s).1.sessions uid).current = some url := by
      unfold cmd_start
      rw [if_neg (by rw [hps]; simp)]
      simp only
      have hq1 : ((setSession uid (fun t => { t with
          queue := load_profiles shuffle s.profiles_file s.reviewed_globally
          accepted := []
          current := none }) s).sessions uid).queue = url :: rest := by
        rw [setSession_self]
        exact hps
      rw [send_next_cons _ _ url rest hq1]
      simp [setSession_self, hps]
    refine ⟨hsess.1, hsess.2.1, hsess.2.2, ?_⟩
    intro pressed
    have hred : (on_callback uid uid "yes" pressed (cmd_start uid shuffle s).1).1
        = (send_next uid (judgeApply "yes" uid url
            (eraseMarkup uid pressed (cmd_start uid shuffle s).1)).1).1 := by
      unfold on_callback
      rw [if_neg (fun h => h rfl), hsess.2.2]
    rw [hred, send_next_accepted, judgeApply_yes_accepted, eraseMarkup_accepted, hsess.2.1]
    rfl

/-- C2 witness: both branches of the amended statement at concrete inputs,
including a press on a message other than the current presentation. -/
theorem C2_amended_witness :
    (cmd_start 1 id (initSt none)).1 = initSt none
    ∧ ((cmd_start 1 id (initSt (some "a\n"))).1.sessions 1).queue = ["a"]
    ∧ ((cmd_start 1 id (initSt (some "a\n"))).1.sessions 1).accepted = []
    ∧ ((cmd_start 1 id (initSt (some "a\n"))).1.sessions 1).current = some "a"
    ∧ ((on_callback 1 1 "yes" (some "stale")
          (cmd_start 1 id (initSt (some "a\n"))).1).1.sessions 1).accepted = ["a"] := by
  have h1 := (C2_amended (initSt none) 1 id).1 (by decide)
  have h2 := (C2_amended (initSt (some "a\n")) 1 id).2 "a" [] (by decide)
  exact ⟨h1, h2.1, h2.2.1, h2.2.2.1, h2.2.2.2 (some "stale")⟩

/-- C3: at every reachable state, `current` is non-empty only while a
presentation with live buttons is outstanding and unjudged for that user
(in particular after `cmd_skip` advances and after `send_next` reports
completion on an empty queue, since those are reachable states too); and a
real verdict (`judge`) always clears `current` — via `mark_reviewed` —
before the subsequent `send_next` can set it again. -/
theorem C3_current_invariant :
    (∀ (f : Option String) (s : St), Reachable (initSt f) s →
        ∀ uid k, (s.sessions uid).current = some k → k ∈ (s.sessions uid).outstanding)
    ∧ (∀ (s : St) (owner : Nat) (url action : String),
        action = "yes" ∨ action = "no" →
        (s.sessions owner).current = some url →
        ((judgeApply action owner url s).1.sessions owner).current = none) :=
  ⟨fun _ _ hr => currentOutstanding_reachable hr,
   fun s owner url action hA hcur => judgeApply_clears_current action owner url s hA hcur⟩

/-- C3 witness: the invariant and the clearing property instantiated at a
concrete reachable state. -/
theorem C3_current_invariant_witness :
    "p" ∈ (c3_afterStart.sessions 1).outstanding
    ∧ ((judgeApply "yes" 1 "p" c3_afterStart).1.sessions 1).current = none := by
  constructor
  · exact C3_current_invariant.1 (some "p\nq") c3_afterStart
      (Reachable.tail Reachable.refl (Step.start 1 id (initSt (some "p\nq")))) 1 "p" (by decide)
  · exact C3_current_invariant.2 c3_afterStart 1 "p" "yes" (Or.inl rfl) (by decide)

/-- C4 counterexample: `send_next` contains no purge loop at all — it
presents the head of the queue without consulting `reviewed_globally`, so a
retired head is neither dropped nor skipped: it is presented and becomes
`current`, contradicting both the claimed loop and its claimed consequence. -/
theorem C4_cx :
    "k" ∈ c4_state.reviewed_globally
    ∧ (c4_state.sessions 1).queue = ["k"]
    ∧ Msg.present 1 "k" ∈ (send_next 1 c4_state).2
    ∧ ((send_next 1 c4_state).1.sessions 1).current = some "k"
    ∧ ((send_next 1 c4_state).1.sessions 1).queue = ["k"] := by decide

/-- C4 as amended: `send_next` never consults the retirement set; it
presents the queue head as-is.  Retired keys are instead kept out of queues
eagerly (by `load_profiles` filtering and the `mark_reviewed` purge), and
whenever the session's queue holds no retired key, the key `send_next`
presents is not retired. -/
theorem C4_amended (s : St) (uid : Nat)
    (h : ∀ x ∈ (s.sessions uid).queue, x ∉ s.reviewed_globally) :
    ∀ k, Msg.present uid k ∈ (send_next uid s).2 → k ∉ s.reviewed_globally := by
  intro k hk
  cases hq : (s.sessions uid).queue with
  | nil =>
    rw [send_next_nil uid s hq] at hk
    simp at hk
  | cons url rest =>
    rw [send_next_cons uid s url rest hq] at hk
    rcases List.mem_cons.mp hk with h1 | h1
    · exact Msg.noConfusion h1
    · rcases List.mem_cons.mp h1 with h2 | h2
      · have hinj := Msg.present.inj h2
        rw [hinj.2]
        exact h url (by rw [hq]; exact List.mem_cons_self url rest)
      · simp at h2

/-- C4 witness: the amended statement at a concrete state. -/
theorem C4_amended_witness : "p" ∉ c4_witness_state.reviewed_globally :=
  C4_amended c4_witness_state 1 (by decide) "p" (by decide)

/-- C5 counterexample: `mark_reviewed` returns `None` (no first-insertion
indicator exists in the code) and performs the purge broadcast
unconditionally: here "k" is already retired — this call is *not* the first
retirement — yet the call still purges "k" out of user 1's queue,
contradicting "performed only when this call was the first retirement". -/
theorem C5_cx :
    "k" ∈ c5_state.reviewed_globally
    ∧ (c5_state.sessions 1).queue = ["k"]
    ∧ ((mark_reviewed "k" c5_state).sessions 1).queue = [] := by decide

/-- C5 as amended: `mark_reviewed` inserts the key idempotently into
`reviewed_globally`, returns no indicator, and performs the purge broadcast
on *every* call — the broadcast over the sessions is independent of whether
the key was already retired, removes the first occurrence of the key from
each queue (all occurrences whenever the key occurs at most once), and
clears any `current` equal to the key. -/
theorem C5_amended (s : St) (k : String) (uid : Nat) :
    k ∈ (mark_reviewed k s).reviewed_globally
    ∧ (mark_reviewed k (mark_reviewed k s)).reviewed_globally
        = (mark_reviewed k s).reviewed_globally
    ∧ (mark_reviewed k { s with reviewed_globally := k :: s.reviewed_globally }).sessions
        = (mark_reviewed k s).sessions
    ∧ (List.count k (s.sessions uid).queue ≤ 1 →
        k ∉ ((mark_reviewed k s).sessions uid).queue)
    ∧ ((mark_reviewed k s).sessions uid).current ≠ some k := by
  refine ⟨mark_reviewed_mem k s, ?_, rfl, ?_, ?_⟩
  · show (if k ∈ (mark_reviewed k s).reviewed_globally then _ else _) = _
    rw [if_pos (mark_reviewed_mem k s)]
  · intro hcount hmem
    have hce := List.count_erase_self k (s.sessions uid).queue
    have hmem2 : k ∈ (s.sessions uid).queue.erase k := hmem
    have hpos := List.count_pos_iff.mpr hmem2
    omega
  · intro hc
    by_cases h : (s.sessions uid).current = some k
    · simp only [mark_reviewed] at hc
      rw [if_pos h] at hc
      cases hc
    · simp only [mark_reviewed] at hc
      rw [if_neg h] at hc
      exact h hc

/-- C5 witness: the amended statement at a concrete state. -/
theorem C5_amended_witness :
    "k" ∈ (mark_reviewed "k" c5_witness_state).reviewed_globally
    ∧ "k" ∉ ((mark_reviewed "k" c5_witness_state).sessions 1).queue := by
  have h := C5_amended c5_witness_state "k" 1
  exact ⟨h.1, h.2.2.2.1 (by decide)⟩

/-- C6: processing a reject verdict on the current url retires it in
`reviewed_globally`, removes every matching entry from `profiles.txt` (no
remaining line parses to that key), and a subsequent `load_profiles` cannot
contain it.  The hypothesis `url ≠ ""` holds for every presentable url,
since `load_profiles` filters empty keys out. -/
theorem C6_reject_roundtrip (s : St) (owner : Nat) (url : String) (pressed : Option String)
    (hcur : (s.sessions owner).current = some url) (hurl : url ≠ "") :
    url ∈ (on_callback owner owner "no" pressed s).1.reviewed_globally
    ∧ (∀ c, (on_callback owner owner "no" pressed s).1.profiles_file = some c →
        ∀ l ∈ pySplitlines c, lineKey l ≠ url)
    ∧ (∀ shuffle : List String → List String, (∀ xs, (shuffle xs).Perm xs) →
        url ∉ load_profiles shuffle (on_callback owner owner "no" pressed s).1.profiles_file
              (on_callback owner owner "no" pressed s).1.reviewed_globally) := by
  have hred : (on_callback owner owner "no" pressed s).1
      = (send_next owner (judgeApply "no" owner url (eraseMarkup owner pressed s)).1).1 := by
    unfold on_callback
    rw [if_neg (fun h => h rfl), hcur]
  have hrev : (on_callback owner owner "no" pressed s).1.reviewed_globally
      = (mark_reviewed url (eraseMarkup owner pressed s)).reviewed_globally := by
    rw [hred, send_next_reviewed, judgeApply_no]
  have hfile : (on_callback owner owner "no" pressed s).1.profiles_file
      = remove_profile url s.profiles_file := by
    rw [hred, send_next_file, judgeApply_no]
    show remove_profile url (mark_reviewed url (eraseMarkup owner pressed s)).profiles_file
        = remove_profile url s.profiles_file
    rw [mark_reviewed_file, eraseMarkup_file]
  have hmem : url ∈ (on_callback owner owner "no" pressed s).1.reviewed_globally := by
    rw [hrev]
    exact mark_reviewed_mem url (eraseMarkup owner pressed s)
  refine ⟨hmem, ?_, ?_⟩
  · intro c hc l hl
    rw [hfile] at hc
    cases hf : s.profiles_file with
    | none => rw [hf] at hc; cases hc
    | some c0 =>
      rw [hf] at hc
      have hc2 : (remove_profile url (some c0)).getD "" = c := by rw [hc]; rfl
      apply remove_profile_lines_key_ne url c0 hurl l
      rw [hc2]
      exact hl
  · intro shuffle hperm
    exact load_profiles_not_mem_of_reviewed shuffle hperm _ _ url hmem

/-- C6 witness: the round-trip at a concrete state. -/
theorem C6_reject_roundtrip_witness :
    "k" ∈ (on_callback 1 1 "no" none c6_state).1.reviewed_globally
    ∧ "k" ∉ load_profiles id (on_callback 1 1 "no" none c6_state).1.profiles_file
          (on_callback 1 1 "no" none c6_state).1.reviewed_globally := by
  have h := C6_reject_roundtrip c6_state 1 "k" none (by decide) (by decide)
  exact ⟨h.1, h.2.2 id (fun xs => List.Perm.refl xs)⟩

/-- C7 counterexample: `remove_profile` of an absent key is *not* a no-op
on file contents.  On an existing empty file, removing the absent key "x"
rewrites the contents from `""` to `"\n"` (the code always writes
`"\n".join(filtered) + "\n"`). -/
theorem C7_cx :
    pySplitlines "" = []
    ∧ remove_profile "x" (some "") = some "\n"
    ∧ some "\n" ≠ some "" := by decide

/-- C7 as amended: `remove_profile` deletes every entry matching the key;
it is idempotent, and a missing file stays missing; when the key is absent
it preserves the *parsed entry list* of a non-empty file, but rewrites the
raw contents in normalized form (lines rejoined with a trailing newline),
which can change them — e.g. an empty file becomes a single newline. -/
theorem C7_amended (url : String) (f : Option String) (c : String) :
    remove_profile url (remove_profile url f) = remove_profile url f
    ∧ (url ≠ "" → ∀ l ∈ pySplitlines ((remove_profile url (some c)).getD ""), lineKey l ≠ url)
    ∧ ((∀ l ∈ pySplitlines c, lineKey l ≠ url) → pySplitlines c ≠ [] →
        pySplitlines ((remove_profile url (some c)).getD "") = pySplitlines c)
    ∧ remove_profile url none = none :=
  ⟨remove_profile_idem url f,
   fun hurl => remove_profile_lines_key_ne url c hurl,
   fun habs hne => remove_profile_absent_lines url c habs hne,
   rfl⟩

/-- C7 witness: the amended statement at concrete inputs. -/
theorem C7_amended_witness :
    remove_profile "x" (remove_profile "x" (some "a\n")) = remove_profile "x" (some "a\n")
    ∧ lineKey "a" ≠ "x"
    ∧ pySplitlines ((remove_profile "x" (some "a\n")).getD "") = pySplitlines "a\n" := by
  have h := C7_amended "x" (some "a\n") "a\n"
  refine ⟨h.1, ?_, h.2.2.1 (by decide) (by decide)⟩
  exact h.2.1 (by decide) "a" (by decide)

/-- C8: a verdict arriving while `current` is empty, or from an identity
different from the session owner recorded in the button's callback data,
leaves the whole state untouched — accepted list, pending queue,
`reviewed_globally` and `profiles.txt` unchanged, no judgment recorded
(the non-owner case additionally answers with a "Это не твоя сессия!"
alert, which is the only effect). -/
theorem C8_stale_or_foreign_noop (s : St) (fromUser owner : Nat) (action : String)
    (pressed : Option String)
    (h : fromUser ≠ owner ∨ (s.sessions owner).current = none) :
    (on_callback fromUser owner action pressed s).1 = s := by
  unfold on_callback
  by_cases hid : fromUser ≠ owner
  · rw [if_pos hid]
  · rw [if_neg hid]
    rcases h with h | h
    · exact absurd h hid
    · rw [h]

/-- C8 witness: a foreign press and a stale press at concrete states. -/
theorem C8_stale_or_foreign_noop_witness :
    (on_callback 2 1 "yes" none (initSt (some "a\n"))).1 = initSt (some "a\n")
    ∧ (on_callback 1 1 "no" none (initSt (some "a\n"))).1 = initSt (some "a\n") := by
  constructor
  · exact C8_stale_or_foreign_noop (initSt (some "a\n")) 2 1 "yes" none (Or.inl (by decide))
  · exact C8_stale_or_foreign_noop (initSt (some "a\n")) 1 1 "no" none (Or.inr (by decide))

/-- C9: an accept verdict never writes `profiles.txt`, and neither does any
other operation except the reject branch of `on_callback`: `cmd_start`,
`cmd_skip`, `send_next` and `mark_reviewed` all leave the store unchanged,
so an accepted item persists in the store indefinitely. -/
theorem C9_accept_frame :
    (∀ (fromUser owner : Nat) (pressed : Option String) (s : St),
        (on_callback fromUser owner "yes" pressed s).1.profiles_file = s.profiles_file)
    ∧ (∀ (uid : Nat) (shuffle : List String → List String) (s : St),
        (cmd_start uid shuffle s).1.profiles_file = s.profiles_file)
    ∧ (∀ (uid : Nat) (s : St), (cmd_skip uid s).1.profiles_file = s.profiles_file)
    ∧ (∀ (url : String) (s : St), (mark_reviewed url s).profiles_file = s.profiles_file)
    ∧ (∀ (uid : Nat) (s : St), (send_next uid s).1.profiles_file = s.profiles_file) :=
  ⟨fun fromUser owner pressed s => on_callback_yes_file fromUser owner pressed s,
   fun uid shuffle s => cmd_start_file uid shuffle s,
   fun uid s => cmd_skip_file uid s,
   fun url s => mark_reviewed_file url s,
   fun uid s => send_next_file uid s⟩
